import Mathlib

/-!
Verification of the domain-scoring engine of `domain-wise-inspector`
(`src/utils/seoAnalyzer.ts`, plus the older analyzer variant kept in the
repository).  Strings are modelled as `List Char` (`Str`), JavaScript
numbers as `ℚ` (all arithmetic in the scoring pipeline is decimal with
small denominators), and the asynchronous pricing collaborator as an
explicit `Except Unit P`-valued parameter.  `String.prototype.trim` and
`String.prototype.toLowerCase` are modelled over ASCII (the analyzer only
ever distinguishes ASCII letters, digits, `-`, `_`, `.`, `/`).
-/

set_option maxHeartbeats 1000000
set_option maxRecDepth 100000

set_option allowUnsafeReducibility true
attribute [local semireducible] Rat.add Rat.mul Rat.sub Rat.div Rat.inv Rat.ofScientific Rat.neg

abbrev Str := List Char

instance {ε α : Type} [DecidableEq ε] [DecidableEq α] : DecidableEq (Except ε α) := fun x y =>
  match x, y with
  | .error a, .error b =>
    if h : a = b then .isTrue (by rw [h]) else .isFalse (by simp [h])
  | .error _, .ok _ => .isFalse (by simp)
  | .ok _, .error _ => .isFalse (by simp)
  | .ok a, .ok b =>
    if h : a = b then .isTrue (by rw [h]) else .isFalse (by simp [h])

/-- ASCII whitespace, modelling the characters `String.prototype.trim` removes. -/
def isJsSpace (c : Char) : Bool :=
  c = ' ' || c = '\t' || c = '\n' || c = '\r' || c = '\x0b' || c = '\x0c'

/-- ASCII lowercasing of one character (model of `toLowerCase`):
code points 65–90 (`A`–`Z`) are shifted by 32. -/
def jsLower (c : Char) : Char :=
  if 65 ≤ c.toNat ∧ c.toNat ≤ 90 then Char.ofNat (c.toNat + 32) else c

/-- `trim`: drop whitespace from both ends. -/
def jsTrim (l : Str) : Str :=
  ((l.dropWhile isJsSpace).reverse.dropWhile isJsSpace).reverse

/-- `p` is a prefix of `l` (model of `String.prototype.startsWith`,
used for the anchored regex `^(https?:\/\/)?(www\.)?`). -/
def strPre : Str → Str → Bool
  | [], _ => true
  | _ :: _, [] => false
  | p :: ps, c :: cs => p == c && strPre ps cs

/-- `sub` occurs as a contiguous substring of `l`
(model of `String.prototype.includes`). -/
def strHas : Str → Str → Bool
  | [], sub => strPre sub []
  | c :: cs, sub => strPre sub (c :: cs) || strHas cs sub

/-- Split a string at every character satisfying `p`, keeping empty pieces,
exactly like `String.prototype.split` with a single-character class. -/
def splitBy (p : Char → Bool) : Str → List Str
  | [] => [[]]
  | c :: cs =>
    if p c then [] :: splitBy p cs
    else
      match splitBy p cs with
      | [] => [[c]]
      | w :: ws => (c :: w) :: ws

/-- The protocol/`www` stripping of the regex
`^(https?:\/\/)?(www\.)?` in `cleanDomainName`. -/
def stripProtoWww (l : Str) : Str :=
  let l1 :=
    if strPre ("http://".data) l then l.drop 7
    else if strPre ("https://".data) l then l.drop 8
    else l
  if strPre ("www.".data) l1 then l1.drop 4 else l1

/-- The cleaning pipeline of `cleanDomainName` before the final dot check:
trim, lowercase, strip protocol and `www.`, truncate at the first `/`. -/
def preClean (url : Str) : Str :=
  (stripProtoWww ((jsTrim url).map jsLower)).takeWhile (fun c => c ≠ '/')

/-- `cleanDomainName` (seoAnalyzer.ts lines 99–121): returns `[]` (the empty
string, falsy) when the cleaned string contains no `.`. -/
def cleanDomainName (url : Str) : Str :=
  let d := preClean url
  if d.any (fun c => c = '.') then d else []

/-- `splitDomain` (lines 123–133): split at the last `.`;
`lastIndexOf` misses exactly when the reversed `takeWhile` eats everything. -/
def splitDomain (domain : Str) : Str × Str :=
  let r := domain.reverse
  let e := r.takeWhile (fun c => c ≠ '.')
  match r.dropWhile (fun c => c ≠ '.') with
  | [] => (domain, [])
  | _ :: nameRev => (nameRev.reverse, e.reverse)

/-- The normalization prelude of `analyzeDomain` (lines 30–35): clean, throw
`"Invalid domain name"` on a falsy clean, else split into `(name, extension)`. -/
def normalizeDomain (domain : Str) : Except Str (Str × Str) :=
  let cd := cleanDomainName domain
  if cd = [] then .error ("Invalid domain name".data)
  else .ok (splitDomain cd)

/-- The fixed keyword list `SEO_FRIENDLY_KEYWORDS` (lines 5–10). -/
def SEO_FRIENDLY_KEYWORDS : List Str :=
  ["seo".data, "search".data, "rank".data, "analytics".data, "digital".data, "web".data,
   "app".data, "tech".data, "online".data, "cyber".data, "data".data, "cloud".data,
   "smart".data, "ai".data, "mobile".data, "social".data, "blog".data, "content".data,
   "marketing".data, "business".data, "market".data, "shop".data, "store".data,
   "learn".data, "edu".data, "pro".data, "expert".data, "help".data, "solutions".data,
   "service".data]

/-- `TLD_SCORES[extension] || 5` (lines 12–26 and 154): table lookup with
default 5; every table value is nonzero so `||` is an ordinary default. -/
def TLD_SCORES (ext : Str) : ℚ :=
  if ext = "com".data then 10
  else if ext = "org".data then 8
  else if ext = "net".data then 7
  else if ext = "io".data then 8
  else if ext = "co".data then 7
  else if ext = "app".data then 9
  else if ext = "ai".data then 9
  else if ext = "dev".data then 8
  else if ext = "tech".data then 8
  else if ext = "digital".data then 7
  else if ext = "agency".data then 7
  else if ext = "store".data then 7
  else if ext = "shop".data then 7
  else 5

/-- `calculateLengthScore` (lines 180–190). -/
def calculateLengthScore (length : ℕ) : ℚ :=
  if 6 ≤ length ∧ length ≤ 14 then 10
  else if length < 6 then max 5 (length : ℚ)
  else max 1 (14 - ((length : ℚ) - 14) * 0.5)

/-- Matches the regex `/[aeiou]/gi` (case-insensitive). -/
def isVowelChar (c : Char) : Bool :=
  c = 'a' || c = 'e' || c = 'i' || c = 'o' || c = 'u' ||
  c = 'A' || c = 'E' || c = 'I' || c = 'O' || c = 'U'

/-- Matches the regex `/\d/`. -/
def isAsciiDigit (c : Char) : Bool := '0' ≤ c && c ≤ '9'

def hyphenCount (name : Str) : ℕ := name.countP (fun c => c = '-')

def digitCount (name : Str) : ℕ := name.countP isAsciiDigit

def vowelCount (name : Str) : ℕ := name.countP isVowelChar

/-- `consonants = name.length - vowels - hyphens - digits` (line 202). -/
def consonantCount (name : Str) : ℤ :=
  (name.length : ℤ) - vowelCount name - hyphenCount name - digitCount name

/-- `vcRatio = vowels / (consonants || 1)` (line 205). -/
def vcQuot (name : Str) : ℚ :=
  (vowelCount name : ℚ) / (if consonantCount name = 0 then 1 else (consonantCount name : ℚ))

/-- The vowel/consonant band component of memorability (lines 206–208). -/
def vcQuotScore (name : Str) : ℚ :=
  if 0.4 ≤ vcQuot name ∧ vcQuot name ≤ 0.6 then 10
  else if 0.6 < vcQuot name then 8 - min 3 (vcQuot name - 0.6) * 2
  else 8 - min 3 (0.4 - vcQuot name) * 2

/-- `calculateMemorabilityScore` (lines 192–215). -/
def calculateMemorabilityScore (name : Str) : ℚ :=
  let hyphenPenalty := min 5 ((hyphenCount name : ℚ) * 1.5)
  let digitPenalty := min 5 ((digitCount name : ℚ))
  max 1 (10 - hyphenPenalty * 0.5 - digitPenalty * 0.3 + vcQuotScore name * 0.2)

/-- Matches the regex `/[^a-z0-9-]/` (line 224). -/
def hasSpecialChars (name : Str) : Bool :=
  name.any fun c => !(('a' ≤ c && c ≤ 'z') || isAsciiDigit c || c = '-')

/-- Matches `/\d/.test(name)` (line 225). -/
def hasNumbers (name : Str) : Bool := name.any isAsciiDigit

/-- `words.filter(word => SEO_FRIENDLY_KEYWORDS.includes(word)).length`
with `words = name.split('-')` (lines 226–231). -/
def commonWordCount (name : Str) : ℕ :=
  ((splitBy (fun c => c = '-') name).filter (fun w => SEO_FRIENDLY_KEYWORDS.contains w)).length

def uniquenessScore (name : Str) : ℚ := 10 - min 5 ((commonWordCount name : ℚ) * 2)

/-- The brandability length component (lines 234–235). -/
def brandLengthScore (name : Str) : ℚ :=
  if 3 < name.length ∧ name.length < 12 then 10
  else if name.length ≤ 3 then 7
  else 10 - min 5 (((name.length : ℚ) - 12) * 0.5)

/-- `cleanlinessScore = 10 - (hasNumbers ? 3 : 0) - (hasSpecialChars ? 5 : 0)` (line 238). -/
def cleanlinessScore (name : Str) : ℚ :=
  10 - (if hasNumbers name then 3 else 0) - (if hasSpecialChars name then 5 else 0)

/-- `calculateBrandabilityScore` (lines 217–241). -/
def calculateBrandabilityScore (name : Str) : ℚ :=
  max 1 (uniquenessScore name * 0.4 + brandLengthScore name * 0.3 + cleanlinessScore name * 0.3)

/-- The separator class of `name.split(/[-_.]/)` (line 244). -/
def isSepChar (c : Char) : Bool := c = '-' || c = '_' || c = '.'

/-- The indexed scan of `calculateKeywordPlacementScore` (lines 246–253). -/
def kpScan : List Str → ℕ → ℚ
  | [], _ => 3
  | w :: ws, i =>
    if SEO_FRIENDLY_KEYWORDS.contains w then 10 - (i : ℚ) * 2 else kpScan ws (i + 1)

/-- `calculateKeywordPlacementScore` (lines 243–254). -/
def calculateKeywordPlacementScore (name : Str) : ℚ :=
  kpScan (splitBy isSepChar name) 0

/-- The keyword-presence predicate of `calculateSEOMetrics` (lines 140–142). -/
def hasKeywordsCheck (name : Str) : Bool :=
  SEO_FRIENDLY_KEYWORDS.any fun keyword =>
    strHas name keyword || (splitBy (fun c => c = '-') name).contains keyword ||
      (splitBy (fun c => c = '.') name).contains keyword

structure SEOMetrics where
  length : ℚ
  hasKeywords : Bool
  memorability : ℚ
  brandability : ℚ
  keywordPlacement : ℚ
  domainExtension : ℚ
  overallScore : ℚ
deriving DecidableEq

/-- `calculateSEOMetrics` (lines 135–178); `Math.round` is `round` on `ℚ`
(`⌊x + 1/2⌋`, round half up, exactly JavaScript's behaviour). -/
def calculateSEOMetrics (name extension : Str) : SEOMetrics :=
  let lengthScore := calculateLengthScore name.length
  let hasKeywords := hasKeywordsCheck name
  let memorability := calculateMemorabilityScore name
  let brandability := calculateBrandabilityScore name
  let keywordPlacement := calculateKeywordPlacementScore name
  let extensionScore := TLD_SCORES extension
  let rawScore :=
    lengthScore * 0.15 + (if hasKeywords then (7 : ℚ) else 3) * 0.2 +
      memorability * 0.2 + brandability * 0.15 + keywordPlacement * 0.15 +
      extensionScore * 0.15
  let overallScore : ℚ := (round rawScore : ℤ)
  { length := lengthScore, hasKeywords := hasKeywords, memorability := memorability,
    brandability := brandability, keywordPlacement := keywordPlacement,
    domainExtension := extensionScore, overallScore := overallScore }

def recLonger : Str := "Consider a slightly longer domain name for better SEO impact.".data

def recShorter : Str := "Shorter domain names are typically more memorable and easier to type.".data

def recKeywords : Str := "Including relevant keywords in your domain can improve SEO performance.".data

def recMemorable : Str := "A more memorable domain name will help users find your site again.".data

def recUnique : Str := "Consider a more unique name that will stand out as a distinct brand.".data

def recPlacement : Str := "For better SEO impact, place keywords at the beginning of the domain name.".data

def recCom : Str := ".com domains generally perform better for SEO and user trust.".data

def recStrong : Str := "This is a strong domain name. Focus on building quality content and backlinks.".data

/-- `generateRecommendations` (lines 256–293); `name` is unused in the source body. -/
def generateRecommendations (metrics : SEOMetrics) (_name extension : Str) : List Str :=
  (if metrics.length < 7 then [recLonger] else []) ++
  (if 9 < metrics.length then [recShorter] else []) ++
  (if !metrics.hasKeywords then [recKeywords] else []) ++
  (if metrics.memorability < 7 then [recMemorable] else []) ++
  (if metrics.brandability < 7 then [recUnique] else []) ++
  (if metrics.keywordPlacement < 5 ∧ metrics.hasKeywords then [recPlacement] else []) ++
  (if metrics.domainExtension < 8 ∧ extension ≠ "com".data then [recCom] else []) ++
  (if 8.5 ≤ metrics.overallScore then [recStrong] else [])

def detailLonger : Str := "From a Functional Purpose perspective, your domain name is the foundation of your online identity and should effectively communicate your brand's essence while supporting SEO goals. The current length is suboptimal for keyword inclusion, limiting your ability to rank for relevant terms. At the Abstract Function level, a more strategically sized domain (6-14 characters) provides the ideal balance between memorability and search engine relevance, allowing for proper keyword integration while remaining easy to recall. In practical implementation (Physical Form), consider adding relevant industry terms or descriptive modifiers to your current domain that align with your target audience's search patterns.".data

def detailShorter : Str := "At the Functional Purpose level, your domain name serves as the primary access point to your digital presence and should minimize user friction. The current length exceeds the optimal character count, creating potential barriers to memorability and direct navigation. The underlying Abstract Function principle is that shorter domains reduce cognitive load for users, leading to improved brand recall and word-of-mouth sharing. From a Generalized Function standpoint, lengthy domains increase the likelihood of typographical errors when users manually enter your URL, potentially resulting in lost traffic. Consider removing unnecessary words or using abbreviations to create a more concise and memorable domain identity.".data

/-- The keyword-suggestion detail (line 312), including the spliced
`SEO_FRIENDLY_KEYWORDS.slice(0, 3).join("', '")`. -/
def detailKeywords : Str :=
  "From a Functional Purpose perspective, your domain should serve as both a brand identifier and a relevance signal to search engines. Currently, it lacks specific industry keywords that would help establish topical authority. The Abstract Function principle at work is that strategic keyword inclusion can provide contextual clues to both users and search algorithms about your website's focus area. At the Physical Function level, incorporating 1-2 relevant keywords from your industry would create stronger semantic connections between user search queries and your domain. Consider adding terms like '".data ++
    (List.intercalate ("', '".data) (SEO_FRIENDLY_KEYWORDS.take 3)) ++
    "' if they align with your business focus.".data

def detailMemorable : Str := "At the core Functional Purpose level, your domain should facilitate easy recall and return visits, functioning as a permanent mental anchor for your brand. The current domain structure scores below optimal on memorability metrics, which may impede organic brand building. From an Abstract Function perspective, memorable domains prioritize phonetic simplicity, avoid special characters, and utilize linguistic patterns that resonate with human memory systems. Examining the Physical Form of your domain, consider removing hyphens, numbers, or unusual spellings that create cognitive friction. A more memorable alternative might use alliteration, rhyming elements, or common word patterns that create stronger mental associations.".data

def detailUnique : Str := "Your domain's primary Functional Purpose includes establishing a distinctive brand identity that stands apart from competitors and creates lasting impressions. The current name lacks sufficient uniqueness to achieve strong brand differentiation in your market space. At the Abstract Function level, brand distinctiveness is a foundational principle that enables more efficient marketing, stronger trademark protection, and reduced confusion in the marketplace. From a Physical Form perspective, consider creating a synthetic word, using unexpected word combinations, or incorporating creative prefixes/suffixes that maintain pronunciation clarity while establishing uniqueness. This approach will significantly strengthen your brand's memorability and legal defensibility.".data

def detailPlacement : Str := "From a Functional Purpose standpoint, your domain should optimize for both human usability and search algorithm interpretation. While your domain contains relevant keywords, their placement is suboptimal for maximum SEO impact. The Abstract Function principle at work is that search engines typically give more weight to terms appearing earlier in a domain name when determining relevance. At the Physical Function level, restructuring your domain to place primary keywords at the beginning would improve keyword prominence scores and potentially boost rankings for those terms. Consider reorganizing your domain structure to prioritize your most strategically valuable keyword at the beginning, followed by any secondary terms or brand identifiers.".data

/-- The `.com` recommendation detail (line 324), with the `extension` splice. -/
def detailCom (extension : Str) : Str :=
  "At the Functional Purpose level, your domain extension should maximize user trust and accessibility across all contexts. While alternative TLDs can work, the .".data ++
    extension ++
    " extension currently used lacks the universal recognition of .com. The Abstract Function principle is that familiar patterns reduce cognitive friction and build inherent trust, with .com being the most recognized pattern globally. From a Physical Form perspective, users encountering unfamiliar TLDs may experience hesitation or question legitimacy. Consider securing the .com version of your domain name, even if it requires slight modification to your preferred name, as the trust benefits typically outweigh the costs of a less exact domain match.".data

def detailStrong : Str := "Your domain excels at its core Functional Purpose of establishing a strong online foundation, scoring well across key evaluation metrics. From an Abstract Function perspective, your domain successfully balances the competing priorities of memorability, brandability, and search relevance – the trifecta of domain name excellence. At the Generalized Function level, this strong domain will support multiple business objectives including direct navigation, brand recall, and search discovery. To maximize this solid foundation, focus now on reinforcing your domain strength with complementary strategies: develop high-quality content that deeply covers your topic area, build relevant backlinks from authoritative sites in your industry, and ensure technical SEO fundamentals are properly implemented across your site architecture.".data

def detailDefault : Str := "This recommendation addresses a critical aspect of your domain strategy that impacts both user experience and search performance. At the Functional Purpose level, domains must balance technical optimization with human-centered design to create sustainable online success. The Abstract Function principles suggest that strategic improvements in this area will yield compounding benefits across multiple performance metrics over time. From a practical implementation standpoint, addressing this specific recommendation should be prioritized as it represents a foundational element that subsequent optimization efforts will build upon.".data

/-- The `includes`-dispatch of `generateEnhancedRecommendationDetails` (lines 303–332). -/
def recommendationDetailFor (extension rec : Str) : Str :=
  if strHas rec ("longer domain".data) then detailLonger
  else if strHas rec ("Shorter domain".data) then detailShorter
  else if strHas rec ("keywords in your domain".data) then detailKeywords
  else if strHas rec ("memorable domain".data) then detailMemorable
  else if strHas rec ("unique name".data) then detailUnique
  else if strHas rec ("keywords at the beginning".data) then detailPlacement
  else if strHas rec (".com domains".data) then detailCom extension
  else if strHas rec ("strong domain name".data) then detailStrong
  else detailDefault

/-- `generateEnhancedRecommendationDetails` (lines 295–336); the detail map is an
insertion-ordered association list keyed by the recommendation text
(`metrics` and `name` are unused in the source body). -/
def generateEnhancedRecommendationDetails (recommendations : List Str) (_metrics : SEOMetrics)
    (_name extension : Str) : List (Str × Str) :=
  recommendations.map fun rec => (rec, recommendationDetailFor extension rec)

/-- The paired strength pushes of `identifyStrengths` (lines 338–381):
each branch pushes a strength string and its detail together. -/
def strengthEntries (metrics : SEOMetrics) (extension : Str) : List (Str × Str) :=
  (if 7 ≤ metrics.length then
    [("Good domain length".data,
      "Your domain has an optimal length for SEO and usability. Domains between 6-14 characters are ideal as they are easier to remember and type while still allowing room for keywords.".data)]
   else []) ++
  (if metrics.hasKeywords then
    [("Contains relevant keywords".data,
      "Your domain includes industry-relevant keywords that can improve search visibility. Search engines may give slight preference to domains that contain keywords related to your business or industry, especially if those keywords match common search queries.".data)]
   else []) ++
  (if 8 ≤ metrics.memorability then
    [("Highly memorable".data,
      "Your domain name scores high on memorability factors such as length, pronounceability, and minimal use of hyphens or numbers. Memorable domains lead to more direct traffic as users can easily recall your URL.".data)]
   else []) ++
  (if 8 ≤ metrics.brandability then
    [("Strong branding potential".data,
      "Your domain has excellent branding characteristics including uniqueness and distinctiveness. A strong brand domain helps establish a unique identity and can become a valuable business asset over time.".data)]
   else []) ++
  (if 8 ≤ metrics.keywordPlacement then
    [("Optimal keyword placement".data,
      "Your domain has keywords positioned optimally for search engine algorithms. Keywords at the beginning of a domain name can have a slightly stronger SEO impact than those positioned later.".data)]
   else []) ++
  (if 9 ≤ metrics.domainExtension then
    [("Premium TLD".data,
      "Your domain uses a premium Top-Level Domain (TLD) extension which typically enjoys higher user trust and better SEO performance. The ".data ++ extension ++
        " TLD is widely recognized and respected across the internet.".data)]
   else if 7 ≤ metrics.domainExtension then
    [("Solid domain extension".data,
      "The ".data ++ extension ++
        " TLD provides good SEO potential and user recognition. While not as universally recognized as .com, this extension still performs well in search rankings and user trust.".data)]
   else []) ++
  (if extension = "com".data then
    [("Uses .com extension".data,
      ".com domains typically enjoy higher user trust and click-through rates as they are the most familiar to users. This TLD is generally preferred by search engines and users alike, potentially leading to improved SEO performance.".data)]
   else [])

/-- `identifyStrengths` (lines 338–381): returns the strength list and the
keyed detail map (`name` is unused in the source body). -/
def identifyStrengths (metrics : SEOMetrics) (_name extension : Str) :
    List Str × List (Str × Str) :=
  let entries := strengthEntries metrics extension
  (entries.map Prod.fst, entries)

/-- The paired weakness pushes of `identifyWeaknesses` (lines 383–431). -/
def weaknessEntries (metrics : SEOMetrics) (name extension : Str) : List (Str × Str) :=
  (if metrics.length < 5 then
    [("Very short domain name".data,
      "While short domains are easy to type, extremely short domain names may limit keyword inclusion opportunities. This could make it harder for your site to rank for relevant industry terms through the domain name alone.".data)]
   else if 12 < metrics.length then
    [("Lengthy domain name".data,
      "Longer domain names can be harder for users to remember and type correctly, potentially leading to reduced direct traffic. They can also be more prone to typos which might direct users to competitor sites.".data)]
   else []) ++
  (if !metrics.hasKeywords then
    [("Lacks relevant keywords".data,
      "Your domain doesn't contain industry-specific keywords that could help with search rankings. While modern SEO doesn't heavily weight keywords in domains, their presence can still provide a small advantage, especially for newer websites.".data)]
   else []) ++
  (if metrics.memorability < 6 then
    [("Low memorability".data,
      "Your domain may be difficult for users to remember due to factors such as unusual spelling, length, or the use of numbers and hyphens. This could reduce return visits and word-of-mouth marketing effectiveness.".data)]
   else []) ++
  (if metrics.brandability < 6 then
    [("Limited branding potential".data,
      "Your domain may have limited distinctive branding potential, which could impact recognition and differentiation from competitors. Strong brands typically have unique, distinctive names that stand out in their industry.".data)]
   else []) ++
  (if metrics.keywordPlacement < 5 ∧ metrics.hasKeywords then
    [("Suboptimal keyword placement".data,
      "The keywords in your domain are positioned less optimally for search engine algorithms. Keywords that appear at the beginning of a domain name may have slightly more SEO impact than those positioned later.".data)]
   else []) ++
  (if metrics.domainExtension < 7 then
    [("Less effective TLD".data,
      "The ".data ++ extension ++
        " TLD may have less SEO impact than premium alternatives like .com. Some users may be less familiar with this extension, potentially affecting click-through rates and perceived trustworthiness.".data)]
   else []) ++
  (if strHas name ("-".data) then
    [("Contains hyphens".data,
      "Hyphens in domain names can reduce memorability and are sometimes associated with lower-quality websites. Users may forget to include the hyphens when typing your URL, potentially leading them to competitor sites.".data)]
   else []) ++
  (if hasNumbers name then
    [("Contains numbers".data,
      "Numbers in domain names can make them harder to remember and communicate verbally. Users may be unsure whether to spell out the number or use the numeral, and might confuse your domain with similar variations.".data)]
   else [])

/-- `identifyWeaknesses` (lines 383–431). -/
def identifyWeaknesses (metrics : SEOMetrics) (name extension : Str) :
    List Str × List (Str × Str) :=
  let entries := weaknessEntries metrics name extension
  (entries.map Prod.fst, entries)

/-- `AnalysisResult` of `@/types`, with the external `DomainPricing` object left
as an opaque type parameter `P`; a missing `pricing` field is `none`. -/
structure AnalysisResult (P : Type) where
  domain : Str
  metrics : SEOMetrics
  recommendations : List Str
  strengths : List Str
  weaknesses : List Str
  strengthDetails : List (Str × Str)
  weaknessDetails : List (Str × Str)
  recommendationDetails : List (Str × Str)
  pricing : Option P
deriving DecidableEq

/-- `analyzeDomain` (lines 28–75).  The asynchronous pricing collaborator
`getDomainPricing` is modelled as the explicit parameter `fetchPricing`: its
result on the cleaned domain is either a pricing object or a failure, which is
caught (`try/catch`) and turned into an absent `pricing` field. -/
def analyzeDomain (P : Type) (fetchPricing : Str → Except Unit P) (domain : Str) :
    Except Str (AnalysisResult P) :=
  let cleanDomain := cleanDomainName domain
  if cleanDomain = [] then .error ("Invalid domain name".data)
  else
    let ne := splitDomain cleanDomain
    let metrics := calculateSEOMetrics ne.1 ne.2
    let recommendations := generateRecommendations metrics ne.1 ne.2
    let s := identifyStrengths metrics ne.1 ne.2
    let w := identifyWeaknesses metrics ne.1 ne.2
    let recommendationDetails :=
      generateEnhancedRecommendationDetails recommendations metrics ne.1 ne.2
    match fetchPricing cleanDomain with
    | .ok pricing =>
      .ok { domain := cleanDomain, metrics := metrics, recommendations := recommendations,
            strengths := s.1, weaknesses := w.1, strengthDetails := s.2,
            weaknessDetails := w.2, recommendationDetails := recommendationDetails,
            pricing := some pricing }
    | .error _ =>
      .ok { domain := cleanDomain, metrics := metrics, recommendations := recommendations,
            strengths := s.1, weaknesses := w.1, strengthDetails := s.2,
            weaknessDetails := w.2, recommendationDetails := recommendationDetails,
            pricing := none }

structure DomainComparison (P : Type) where
  domains : List (AnalysisResult P)
  bestChoice : Str
deriving DecidableEq

/-- `Promise.all(domains.map(analyzeDomain))` (line 79): every domain is
analyzed and the first failure rejects the whole comparison. -/
def analyzeAll (P : Type) (fetchPricing : Str → Except Unit P) :
    List Str → Except Str (List (AnalysisResult P))
  | [] => .ok []
  | d :: ds =>
    match analyzeDomain P fetchPricing d, analyzeAll P fetchPricing ds with
    | .error e, _ => .error e
    | .ok _, .error e => .error e
    | .ok r, .ok rs => .ok (r :: rs)

/-- One step of the `forEach` scan of `compareDomains` (lines 85–90):
update on strictly greater score only. -/
def pickStep {P : Type} (acc : Str × ℚ) (r : AnalysisResult P) : Str × ℚ :=
  if acc.2 < r.metrics.overallScore then (r.domain, r.metrics.overallScore) else acc

/-- The full scan, started from `bestChoice = ''`, `highestScore = 0` (lines 82–83). -/
def pickBest (P : Type) (rs : List (AnalysisResult P)) : Str × ℚ :=
  rs.foldl pickStep ([], 0)

/-- `compareDomains` (lines 77–96). -/
def compareDomains (P : Type) (fetchPricing : Str → Except Unit P) (domains : List Str) :
    Except Str (DomainComparison P) :=
  match analyzeAll P fetchPricing domains with
  | .error e => .error e
  | .ok results => .ok { domains := results, bestChoice := (pickBest P results).1 }

/-- The keyword list of the older analyzer variant (`src/unnamed/part_014`,
lines 4–9); textually identical to the current one. -/
def SEO_FRIENDLY_KEYWORDS014 : List Str :=
  ["seo".data, "search".data, "rank".data, "analytics".data, "digital".data, "web".data,
   "app".data, "tech".data, "online".data, "cyber".data, "data".data, "cloud".data,
   "smart".data, "ai".data, "mobile".data, "social".data, "blog".data, "content".data,
   "marketing".data, "business".data, "market".data, "shop".data, "store".data,
   "learn".data, "edu".data, "pro".data, "expert".data, "help".data, "solutions".data,
   "service".data]

/-- The TLD table of `part_014` (lines 11–25). -/
def TLD_SCORES014 (ext : Str) : ℚ :=
  if ext = "com".data then 10
  else if ext = "org".data then 8
  else if ext = "net".data then 7
  else if ext = "io".data then 8
  else if ext = "co".data then 7
  else if ext = "app".data then 9
  else if ext = "ai".data then 9
  else if ext = "dev".data then 8
  else if ext = "tech".data then 8
  else if ext = "digital".data then 7
  else if ext = "agency".data then 7
  else if ext = "store".data then 7
  else if ext = "shop".data then 7
  else 5

/-- `calculateLengthScore` of `part_014` (lines 153–163). -/
def calculateLengthScore014 (length : ℕ) : ℚ :=
  if 6 ≤ length ∧ length ≤ 14 then 10
  else if length < 6 then max 5 (length : ℚ)
  else max 1 (14 - ((length : ℚ) - 14) * 0.5)

/-- `vcRatio` of `part_014` (line 178); the hyphen/digit/vowel regexes are
textually identical in both files, so the counting helpers are shared. -/
def vcQuot014 (name : Str) : ℚ :=
  (vowelCount name : ℚ) / (if consonantCount name = 0 then 1 else (consonantCount name : ℚ))

/-- `vcRatioScore` of `part_014` (lines 179–181). -/
def vcQuotScore014 (name : Str) : ℚ :=
  if 0.4 ≤ vcQuot014 name ∧ vcQuot014 name ≤ 0.6 then 10
  else if 0.6 < vcQuot014 name then 8 - min 3 (vcQuot014 name - 0.6) * 2
  else 8 - min 3 (0.4 - vcQuot014 name) * 2

/-- `calculateMemorabilityScore` of `part_014` (lines 165–188). -/
def calculateMemorabilityScore014 (name : Str) : ℚ :=
  let hyphenPenalty := min 5 ((hyphenCount name : ℚ) * 1.5)
  let digitPenalty := min 5 ((digitCount name : ℚ))
  max 1 (10 - hyphenPenalty * 0.5 - digitPenalty * 0.3 + vcQuotScore014 name * 0.2)

def commonWordCount014 (name : Str) : ℕ :=
  ((splitBy (fun c => c = '-') name).filter (fun w => SEO_FRIENDLY_KEYWORDS014.contains w)).length

/-- `calculateBrandabilityScore` of `part_014` (lines 190–215). -/
def calculateBrandabilityScore014 (name : Str) : ℚ :=
  let uniquenessScore : ℚ := 10 - min 5 ((commonWordCount014 name : ℚ) * 2)
  let lengthScore : ℚ :=
    if 3 < name.length ∧ name.length < 12 then 10
    else if name.length ≤ 3 then 7
    else 10 - min 5 (((name.length : ℚ) - 12) * 0.5)
  let cleanlinessScore : ℚ :=
    10 - (if hasNumbers name then 3 else 0) - (if hasSpecialChars name then 5 else 0)
  max 1 (uniquenessScore * 0.4 + lengthScore * 0.3 + cleanlinessScore * 0.3)

def kpScan014 : List Str → ℕ → ℚ
  | [], _ => 3
  | w :: ws, i =>
    if SEO_FRIENDLY_KEYWORDS014.contains w then 10 - (i : ℚ) * 2 else kpScan014 ws (i + 1)

/-- `calculateKeywordPlacementScore` of `part_014` (lines 217–228). -/
def calculateKeywordPlacementScore014 (name : Str) : ℚ :=
  kpScan014 (splitBy isSepChar name) 0

def hasKeywordsCheck014 (name : Str) : Bool :=
  SEO_FRIENDLY_KEYWORDS014.any fun keyword =>
    strHas name keyword || (splitBy (fun c => c = '-') name).contains keyword ||
      (splitBy (fun c => c = '.') name).contains keyword

/-- The metrics record of `part_014`: its `overallScore` is the raw weighted
average, never rounded. -/
structure SEOMetrics014 where
  length : ℚ
  hasKeywords : Bool
  memorability : ℚ
  brandability : ℚ
  keywordPlacement : ℚ
  domainExtension : ℚ
  overallScore : ℚ
deriving DecidableEq

/-- `calculateSEOMetrics` of `part_014` (lines 111–151): identical weighted sum,
but the overall score is returned unrounded. -/
def calculateSEOMetrics014 (name extension : Str) : SEOMetrics014 :=
  let lengthScore := calculateLengthScore014 name.length
  let hasKeywords := hasKeywordsCheck014 name
  let memorability := calculateMemorabilityScore014 name
  let brandability := calculateBrandabilityScore014 name
  let keywordPlacement := calculateKeywordPlacementScore014 name
  let extensionScore := TLD_SCORES014 extension
  let overallScore :=
    lengthScore * 0.15 + (if hasKeywords then (7 : ℚ) else 3) * 0.2 +
      memorability * 0.2 + brandability * 0.15 + keywordPlacement * 0.15 +
      extensionScore * 0.15
  { length := lengthScore, hasKeywords := hasKeywords, memorability := memorability,
    brandability := brandability, keywordPlacement := keywordPlacement,
    domainExtension := extensionScore, overallScore := overallScore }

/-- The pricing collaborator that always fails (used to instantiate theorems
about enrichment failure at concrete inputs). -/
def samplePricingFail : Str → Except Unit Unit := fun _ => .error ()

/-- The concrete comparison of the single-element list `["example.com"]`
under a failing pricing collaborator. -/
def sampleCmp : DomainComparison Unit :=
  ((compareDomains Unit samplePricingFail ["example.com".data]).toOption).getD ⟨[], []⟩

/-- A syntactically valid domain whose keyword (`seo`) sits at split index 26,
giving `keywordPlacement = 10 - 2*26 = -42` and an overall score of `-1`. -/
def lowScoreDomain : Str :=
  "a-a-a-a-a-a-a-a-a-a-a-a-a-a-a-a-a-a-a-a-a-a-a-a-a-a-seo.xyz".data

/-!
## Theorems
-/

/-- C4: for every name, the length score is exactly 10 when the name's length
is in [6,14]; it is `max 5 length` below 6; and it is
`max 1 (14 - (length - 14) * 0.5)` above 14. -/
theorem lengthScore_spec (name : Str) :
    (6 ≤ name.length → name.length ≤ 14 → calculateLengthScore name.length = 10) ∧
    (name.length < 6 → calculateLengthScore name.length = max 5 (name.length : ℚ)) ∧
    (14 < name.length →
      calculateLengthScore name.length = max 1 (14 - ((name.length : ℚ) - 14) * 0.5)) := by
  unfold calculateLengthScore
  refine ⟨fun h1 h2 => ?_, fun h => ?_, fun h => ?_⟩
  · rw [if_pos ⟨h1, h2⟩]
  · rw [if_neg (by omega), if_pos h]
  · rw [if_neg (by omega), if_neg (by omega)]

/-- Witness for C4 at `name = "example"` (7 characters, score 10). -/
theorem lengthScore_spec_witness :
    6 ≤ ("example".data).length ∧ ("example".data).length ≤ 14 ∧
      calculateLengthScore ("example".data).length = 10 :=
  ⟨by decide, by decide, (lengthScore_spec ("example".data)).1 (by decide) (by decide)⟩

/-- C5 counterexample: for the name `aaaaaaabbbbbbbbbb` the ratio is 0.7
(deviation 0.1 above the band), yet the component is 7.8, not the
10 − 2·(deviation/0.1) = 8 the claim's decay rate would give. -/
theorem vcBand_decay_counterexample :
    0.6 < vcQuot ("aaaaaaabbbbbbbbbb".data) ∧
    vcQuotScore ("aaaaaaabbbbbbbbbb".data) ≠
      10 - (vcQuot ("aaaaaaabbbbbbbbbb".data) - 0.6) / 0.1 * 2 := by decide

/-- C5 amended: inside [0.4,0.6] the component is 10; outside it is
`8 - 2·min 3 deviation` — it drops to 8 at the band edge and then decays by
0.2 (not 2) points per 0.1 of deviation, floored at 2. -/
theorem vcBandScore_spec (name : Str) :
    (0.4 ≤ vcQuot name → vcQuot name ≤ 0.6 → vcQuotScore name = 10) ∧
    (0.6 < vcQuot name → vcQuotScore name = 8 - min 3 (vcQuot name - 0.6) * 2) ∧
    (vcQuot name < 0.4 → vcQuotScore name = 8 - min 3 (0.4 - vcQuot name) * 2) := by
  unfold vcQuotScore
  refine ⟨fun h1 h2 => ?_, fun h => ?_, fun h => ?_⟩
  · rw [if_pos ⟨h1, h2⟩]
  · rw [if_neg (fun hc => absurd hc.2 (not_le.mpr h)), if_pos h]
  · rw [if_neg (fun hc => absurd hc.1 (not_le.mpr h)), if_neg (by linarith)]

/-- Witness for the amended C5 at `name = "aaaaaaabbbbbbbbbb"` (ratio 0.7). -/
theorem vcBandScore_spec_witness :
    0.6 < vcQuot ("aaaaaaabbbbbbbbbb".data) ∧
      vcQuotScore ("aaaaaaabbbbbbbbbb".data) =
        8 - min 3 (vcQuot ("aaaaaaabbbbbbbbbb".data) - 0.6) * 2 :=
  ⟨by decide, (vcBandScore_spec ("aaaaaaabbbbbbbbbb".data)).2.1 (by decide)⟩

/-- C6 counterexample: no name makes the cleanliness sub-score negative;
its minimum over all inputs is 10 − 3 − 5 = 2 > 0. -/
theorem cleanliness_negative_impossible : ¬ ∃ name : Str, cleanlinessScore name < 0 := by
  rintro ⟨name, h⟩
  unfold cleanlinessScore at h
  split_ifs at h <;> norm_num at h

/-- C6 amended: the cleanliness sub-score is bounded below by 2 (so it is never
negative before the final clamp), and 2 is attained, e.g. by `a1%` which has
both a digit and a special character. -/
theorem cleanliness_min_two :
    (∀ name : Str, 2 ≤ cleanlinessScore name) ∧ cleanlinessScore ("a1%".data) = 2 := by
  constructor
  · intro name
    unfold cleanlinessScore
    split_ifs <;> norm_num
  · decide

/-- The two keyword-placement scans (current file and `part_014`) compute the
same value: their keyword lists are identical. -/
theorem kpScan014_eq (ws : List Str) (i : ℕ) : kpScan014 ws i = kpScan ws i := by
  induction ws generalizing i with
  | nil => rfl
  | cons w ws ih =>
    show (if SEO_FRIENDLY_KEYWORDS014.contains w then 10 - (i : ℚ) * 2
          else kpScan014 ws (i + 1)) =
      (if SEO_FRIENDLY_KEYWORDS.contains w then 10 - (i : ℚ) * 2 else kpScan ws (i + 1))
    rw [show SEO_FRIENDLY_KEYWORDS014 = SEO_FRIENDLY_KEYWORDS from rfl]
    split
    · rfl
    · exact ih (i + 1)

theorem keywordPlacement014_eq (name : Str) :
    calculateKeywordPlacementScore014 name = calculateKeywordPlacementScore name :=
  kpScan014_eq (splitBy isSepChar name) 0

/-- C10: on every `(name, extension)` the current `calculateSEOMetrics` and the
older variant of `part_014` agree exactly on all six component metrics, and the
current overall score is the older (unrounded) overall score rounded to the
nearest integer (`Math.round`, i.e. `⌊x + 1/2⌋`). -/
theorem metrics_agree_with_part014 (name extension : Str) :
    (calculateSEOMetrics name extension).length = (calculateSEOMetrics014 name extension).length ∧
    (calculateSEOMetrics name extension).hasKeywords =
      (calculateSEOMetrics014 name extension).hasKeywords ∧
    (calculateSEOMetrics name extension).memorability =
      (calculateSEOMetrics014 name extension).memorability ∧
    (calculateSEOMetrics name extension).brandability =
      (calculateSEOMetrics014 name extension).brandability ∧
    (calculateSEOMetrics name extension).keywordPlacement =
      (calculateSEOMetrics014 name extension).keywordPlacement ∧
    (calculateSEOMetrics name extension).domainExtension =
      (calculateSEOMetrics014 name extension).domainExtension ∧
    (calculateSEOMetrics name extension).overallScore =
      ((round (calculateSEOMetrics014 name extension).overallScore : ℤ) : ℚ) := by
  refine ⟨rfl, rfl, rfl, rfl, (keywordPlacement014_eq name).symm, rfl, ?_⟩
  simp only [calculateSEOMetrics, calculateSEOMetrics014, keywordPlacement014_eq,
    show calculateLengthScore014 = calculateLengthScore from rfl,
    show hasKeywordsCheck014 = hasKeywordsCheck from rfl,
    show calculateMemorabilityScore014 = calculateMemorabilityScore from rfl,
    show calculateBrandabilityScore014 = calculateBrandabilityScore from rfl,
    show TLD_SCORES014 = TLD_SCORES from rfl]

/-- The first element surviving `dropWhile` fails the predicate. -/
theorem dropWhile_cons_head {p : Char → Bool} {l : Str} {c : Char} {cs : Str}
    (h : l.dropWhile p = c :: cs) : p c = false := by
  induction l with
  | nil => simp at h
  | cons a as ih =>
    rw [List.dropWhile_cons] at h
    by_cases hp : p a
    · rw [if_pos hp] at h
      exact ih h
    · rw [if_neg hp] at h
      cases h
      simpa using hp

/-- When the input contains a `.`, `splitDomain` cuts it at the last `.`:
the input is `name ++ "." ++ extension` and the extension is dot-free. -/
theorem splitDomain_eq (domain : Str) (hdot : domain.any (fun c => c = '.') = true) :
    domain = (splitDomain domain).1 ++ '.' :: (splitDomain domain).2 ∧
    (splitDomain domain).2.all (fun c => c ≠ '.') = true := by
  have hmem : '.' ∈ domain.reverse := by
    rw [List.mem_reverse]
    obtain ⟨x, hx, hpx⟩ := List.any_eq_true.mp hdot
    have : x = '.' := by simpa using hpx
    exact this ▸ hx
  have hne : domain.reverse.dropWhile (fun c => c ≠ '.') ≠ [] := by
    intro hnil
    have hall := List.dropWhile_eq_nil_iff.mp hnil '.' hmem
    simp at hall
  obtain ⟨c, nameRev, hcons⟩ := List.exists_cons_of_ne_nil hne
  have hc : c = '.' := by simpa using dropWhile_cons_head hcons
  subst hc
  have hsplit :
      splitDomain domain =
        (nameRev.reverse, (domain.reverse.takeWhile (fun c => c ≠ '.')).reverse) := by
    simp only [splitDomain]
    rw [hcons]
  have happ := List.takeWhile_append_dropWhile (fun c => decide (c ≠ '.')) domain.reverse
  rw [hcons] at happ
  constructor
  · rw [hsplit]
    conv_lhs => rw [← domain.reverse_reverse, ← happ]
    simp [List.reverse_append]
  · rw [hsplit]
    simp only [List.all_eq_true, List.mem_reverse]
    intro x hx
    have := List.mem_takeWhile_imp (p := fun c => decide (c ≠ '.')) hx
    simpa using this

/-- C2 counterexample: normalization succeeds on `".com"` with an EMPTY name,
and on `"com."` with an EMPTY extension, refuting the non-emptiness invariant. -/
theorem normalize_empty_parts_counterexample :
    normalizeDomain (".com".data) = .ok ([], "com".data) ∧
    normalizeDomain ("com.".data) = .ok ("com".data, []) := by decide

/-- C2 amended: normalization fails with the `InvalidDomain` error exactly when
the cleaned string (lowercased, trimmed, scheme/`www.` stripped, truncated at
the first `/`) contains no `.`; when it succeeds, `(name, extension)` are the
pieces around the LAST dot of the cleaned string and the extension is
dot-free — but either piece may be empty (leading or trailing dot). -/
theorem normalize_spec (raw : Str) :
    (normalizeDomain raw = .error ("Invalid domain name".data) ↔
      (preClean raw).any (fun c => c = '.') = false) ∧
    (∀ n e, normalizeDomain raw = .ok (n, e) →
      cleanDomainName raw = n ++ '.' :: e ∧ e.all (fun c => c ≠ '.') = true) := by
  by_cases hdot : (preClean raw).any (fun c => c = '.') = true
  · have hclean : cleanDomainName raw = preClean raw := by simp [cleanDomainName, hdot]
    have hne : preClean raw ≠ [] := by
      obtain ⟨x, hx, _⟩ := List.any_eq_true.mp hdot
      exact List.ne_nil_of_mem hx
    constructor
    · exact iff_of_false (by simp [normalizeDomain, hclean, hne]) (by simp [hdot])
    · intro n e hok
      have hsd : splitDomain (preClean raw) = (n, e) := by
        simpa [normalizeDomain, hclean, hne] using hok
      have hstruct := splitDomain_eq (preClean raw) hdot
      rw [hsd] at hstruct
      rw [hclean]
      exact hstruct
  · have hdot' : (preClean raw).any (fun c => c = '.') = false := by
      simp only [Bool.not_eq_true] at hdot
      exact hdot
    have hclean : cleanDomainName raw = [] := by simp [cleanDomainName, hdot']
    constructor
    · exact iff_of_true (by simp [normalizeDomain, hclean]) hdot'
    · intro n e hok
      simp [normalizeDomain, hclean] at hok

/-- Witness for the amended C2 at `"a.com"`. -/
theorem normalize_spec_witness :
    normalizeDomain ("a.com".data) = .ok ("a".data, "com".data) ∧
    (cleanDomainName ("a.com".data) = "a".data ++ '.' :: "com".data ∧
      ("com".data).all (fun c => c ≠ '.') = true) :=
  ⟨by decide, (normalize_spec ("a.com".data)).2 ("a".data) ("com".data) (by decide)⟩

theorem mem_iteSingleton {α : Type} {x k : α} {c : Prop} [Decidable c] :
    x ∈ (if c then [k] else ([] : List α)) ↔ c ∧ x = k := by
  split_ifs with h <;> simp [h]

theorem mem_itePair {α : Type} {x k1 k2 : α} {c1 c2 : Prop} [Decidable c1] [Decidable c2] :
    x ∈ (if c1 then [k1] else if c2 then [k2] else ([] : List α)) ↔
      (c1 ∧ x = k1) ∨ (¬c1 ∧ c2 ∧ x = k2) := by
  split_ifs with h1 h2 <;> simp [*]

/-- The length score drops strictly below 5 exactly at 33 characters. -/
theorem lengthScore_lt_five_iff (n : ℕ) : calculateLengthScore n < 5 ↔ 33 ≤ n := by
  unfold calculateLengthScore
  split_ifs with h1 h2
  · constructor
    · intro h
      norm_num at h
    · intro h
      omega
  · rw [max_lt_iff]
    constructor
    · rintro ⟨h, -⟩
      norm_num at h
    · intro h
      omega
  · rw [max_lt_iff]
    constructor
    · rintro ⟨-, h⟩
      have hq : (32 : ℚ) < (n : ℚ) := by linarith
      have : (32 : ℕ) < n := by exact_mod_cast hq
      omega
    · intro h
      have hq : (33 : ℚ) ≤ (n : ℚ) := by exact_mod_cast h
      exact ⟨by norm_num, by linarith⟩

/-- C9: the weakness `"Very short domain name"` is emitted iff the length
score is strictly below 5, which happens iff the name has at least 33
characters; and for names shorter than 6 characters the length score is
at least 5, so the weakness never fires for genuinely short names. -/
theorem very_short_weakness (name ext : Str) :
    (("Very short domain name".data ∈
        (identifyWeaknesses (calculateSEOMetrics name ext) name ext).1) ↔
      (calculateSEOMetrics name ext).length < 5) ∧
    ((calculateSEOMetrics name ext).length < 5 ↔ 33 ≤ name.length) ∧
    (name.length < 6 → 5 ≤ calculateLengthScore name.length) := by
  refine ⟨?_, lengthScore_lt_five_iff name.length, fun h => ?_⟩
  · have d1 : "Very short domain name".data ≠ "Lengthy domain name".data := by decide
    have d2 : "Very short domain name".data ≠ "Lacks relevant keywords".data := by decide
    have d3 : "Very short domain name".data ≠ "Low memorability".data := by decide
    have d4 : "Very short domain name".data ≠ "Limited branding potential".data := by decide
    have d5 : "Very short domain name".data ≠ "Suboptimal keyword placement".data := by decide
    have d6 : "Very short domain name".data ≠ "Less effective TLD".data := by decide
    have d7 : "Very short domain name".data ≠ "Contains hyphens".data := by decide
    have d8 : "Very short domain name".data ≠ "Contains numbers".data := by decide
    simp [identifyWeaknesses, weaknessEntries, mem_itePair, mem_iteSingleton,
      d1, d2, d3, d4, d5, d6, d7, d8]
  · unfold calculateLengthScore
    rw [if_neg (by omega), if_pos h]
    exact le_max_left 5 _

/-- Witness for C9 at the 3-character name `"abc"`. -/
theorem very_short_weakness_witness :
    ("abc".data).length < 6 ∧ 5 ≤ calculateLengthScore ("abc".data).length :=
  ⟨by decide, (very_short_weakness ("abc".data) ("com".data)).2.2 (by decide)⟩

/-- C7: a failing pricing collaborator is caught and swallowed: the analysis
still returns normally, equal to the successful-pricing result except that the
`pricing` field is absent (`none` instead of `some p`); and whenever cleaning
succeeds the failing-pricing analysis indeed returns `ok` with no pricing. -/
theorem analyzeDomain_pricing_failure (P : Type) (p : P) (d : Str) :
    analyzeDomain P (fun _ => .error ()) d =
      (analyzeDomain P (fun _ => .ok p) d).map (fun r => { r with pricing := none }) ∧
    (analyzeDomain P (fun _ => .ok p) d).map (fun r => r.pricing) =
      (analyzeDomain P (fun _ => .ok p) d).map (fun _ => some p) ∧
    (cleanDomainName d ≠ [] →
      ∃ r, analyzeDomain P (fun _ => .error ()) d = .ok r ∧ r.pricing = none) := by
  by_cases hcd : cleanDomainName d = []
  · refine ⟨?_, ?_, fun h => absurd hcd h⟩ <;> simp [analyzeDomain, hcd, Except.map]
  · refine ⟨?_, ?_, fun _ => ?_⟩
    · simp [analyzeDomain, hcd, Except.map]
    · simp [analyzeDomain, hcd, Except.map]
    · simp only [analyzeDomain, if_neg hcd]
      exact ⟨_, rfl, rfl⟩

/-- Witness for C7 at `"example.com"` with a failing pricing call. -/
theorem analyzeDomain_pricing_failure_witness :
    cleanDomainName ("example.com".data) ≠ [] ∧
    ∃ r, analyzeDomain Unit (fun _ => .error ()) ("example.com".data) = .ok r ∧
      r.pricing = none :=
  ⟨by decide, (analyzeDomain_pricing_failure Unit () ("example.com".data)).2.2 (by decide)⟩

/-- Lowercasing never produces an uppercase ASCII letter. -/
theorem jsLower_not_upper (c : Char) :
    ¬(65 ≤ (jsLower c).toNat ∧ (jsLower c).toNat ≤ 90) := by
  unfold jsLower
  split_ifs with h
  · obtain ⟨h1, h2⟩ := h
    set k := c.toNat with hk
    interval_cases k <;> decide
  · exact h

/-- Lowercasing is idempotent. -/
theorem jsLower_idem (c : Char) : jsLower (jsLower c) = jsLower c := by
  rw [show jsLower (jsLower c) =
        (if 65 ≤ (jsLower c).toNat ∧ (jsLower c).toNat ≤ 90 then
          Char.ofNat ((jsLower c).toNat + 32) else jsLower c) from rfl,
    if_neg (jsLower_not_upper c)]

theorem mem_of_mem_takeWhileP {p : Char → Bool} {l : Str} {x : Char}
    (h : x ∈ l.takeWhile p) : x ∈ l := by
  induction l with
  | nil => simp at h
  | cons a as ih =>
    rw [List.takeWhile_cons] at h
    by_cases hp : p a
    · rw [if_pos hp] at h
      rcases List.mem_cons.mp h with rfl | h2
      · exact List.mem_cons_self _ _
      · exact List.mem_cons_of_mem _ (ih h2)
    · rw [if_neg hp] at h
      simp at h

theorem mem_of_mem_stripProtoWww {l : Str} {x : Char} (h : x ∈ stripProtoWww l) : x ∈ l := by
  unfold stripProtoWww at h
  dsimp only at h
  split_ifs at h <;>
    first
      | exact h
      | exact List.drop_subset _ _ h
      | exact List.drop_subset _ _ (List.drop_subset _ _ h)

/-- Every character of a cleaned domain is already lowercase and is not `/`. -/
theorem cleanDomainName_chars (raw : Str) :
    ∀ c ∈ cleanDomainName raw, jsLower c = c ∧ c ≠ '/' := by
  intro c hc
  unfold cleanDomainName at hc
  dsimp only at hc
  split_ifs at hc with hdot
  · have hslash : c ≠ '/' := by
      have := List.mem_takeWhile_imp (p := fun c => decide (c ≠ '/')) hc
      simpa using this
    have h1 : c ∈ stripProtoWww ((jsTrim raw).map jsLower) := mem_of_mem_takeWhileP hc
    have h2 : c ∈ (jsTrim raw).map jsLower := mem_of_mem_stripProtoWww h1
    obtain ⟨x, -, rfl⟩ := List.mem_map.mp h2
    exact ⟨jsLower_idem x, hslash⟩
  · simp at hc

/-- A successful prefix test exposes its characters in the larger string. -/
theorem strPre_mem {pre l : Str} (h : strPre pre l = true) : ∀ c ∈ pre, c ∈ l := by
  induction pre generalizing l with
  | nil => simp
  | cons p ps ih =>
    cases l with
    | nil => simp [strPre] at h
    | cons a as =>
      simp only [strPre, Bool.and_eq_true, beq_iff_eq] at h
      obtain ⟨rfl, h2⟩ := h
      intro c hc
      rcases List.mem_cons.mp hc with rfl | h3
      · exact List.mem_cons_self _ _
      · exact List.mem_cons_of_mem _ (ih h2 c h3)

/-- C3 counterexample: normalizing `"www.www.example.com"` yields the cleaned
domain `"www.example.com"` with name `"www.example"`, but normalizing that
cleaned domain again strips a second `"www."` and yields name `"example"`:
normalization is NOT idempotent. -/
theorem normalize_not_idempotent :
    normalizeDomain ("www.www.example.com".data) = .ok ("www.example".data, "com".data) ∧
    cleanDomainName ("www.www.example.com".data) = "www.example.com".data ∧
    normalizeDomain ("www.example.com".data) = .ok ("example".data, "com".data) ∧
    (("www.example".data, "com".data) : Str × Str) ≠ ("example".data, "com".data) := by
  refine ⟨by decide, by decide, by decide, by decide⟩

/-- C3 amended: normalization IS idempotent on every cleaned domain that has no
leading/trailing whitespace and does not itself start with `"www."` (the cleaned
string can never retain a scheme, since it contains no `/`): re-normalizing the
cleaned domain then succeeds with the same `(name, extension)` pair. -/
theorem normalizeDomain_idem (raw n e : Str) (hok : normalizeDomain raw = .ok (n, e))
    (htrim : jsTrim (cleanDomainName raw) = cleanDomainName raw)
    (hwww : strPre ("www.".data) (cleanDomainName raw) = false) :
    normalizeDomain (cleanDomainName raw) = .ok (n, e) := by
  have hne : cleanDomainName raw ≠ [] := by
    intro h
    simp [normalizeDomain, h] at hok
  have hsd : splitDomain (cleanDomainName raw) = (n, e) := by
    simpa [normalizeDomain, hne] using hok
  have hdot : (cleanDomainName raw).any (fun c => c = '.') = true := by
    by_cases hdotp : (preClean raw).any (fun c => c = '.') = true
    · simp [cleanDomainName, hdotp]
    · have hfalse : (preClean raw).any (fun c => c = '.') = false := by
        simp only [Bool.not_eq_true] at hdotp
        exact hdotp
      exact absurd (by simp [cleanDomainName, hfalse]) hne
  have hchars := cleanDomainName_chars raw
  have hmapl : (cleanDomainName raw).map jsLower = cleanDomainName raw :=
    (List.map_congr_left fun c hc => (hchars c hc).1).trans (List.map_id _)
  have htw : (cleanDomainName raw).takeWhile (fun c => c ≠ '/') = cleanDomainName raw :=
    List.takeWhile_eq_self_iff.mpr fun c hc => by simp [(hchars c hc).2]
  have hhttp : strPre ("http://".data) (cleanDomainName raw) = false := by
    cases hcase : strPre ("http://".data) (cleanDomainName raw)
    · rfl
    · exact absurd rfl
        ((hchars '/' (strPre_mem hcase '/' (by decide))).2)
  have hhttps : strPre ("https://".data) (cleanDomainName raw) = false := by
    cases hcase : strPre ("https://".data) (cleanDomainName raw)
    · rfl
    · exact absurd rfl
        ((hchars '/' (strPre_mem hcase '/' (by decide))).2)
  have hstrip : stripProtoWww (cleanDomainName raw) = cleanDomainName raw := by
    unfold stripProtoWww
    simp [hhttp, hhttps, hwww]
  have hpre : preClean (cleanDomainName raw) = cleanDomainName raw := by
    unfold preClean
    rw [htrim, hmapl, hstrip, htw]
  have hcleand : cleanDomainName (cleanDomainName raw) = cleanDomainName raw := by
    rw [show cleanDomainName (cleanDomainName raw) =
          (if ((preClean (cleanDomainName raw)).any (fun c => c = '.')) = true
           then preClean (cleanDomainName raw) else []) from rfl, hpre]
    simp [hdot]
  simp [normalizeDomain, hcleand, hne, hsd]

/-- Witness for the amended C3: `"HTTPS://WWW.EXAMPLE.COM/path"` cleans to
`"example.com"`, which is trimmed and `www.`-free, and re-normalizes to the
same pair. -/
theorem normalizeDomain_idem_witness :
    normalizeDomain ("HTTPS://WWW.EXAMPLE.COM/path".data) = .ok ("example".data, "com".data) ∧
    jsTrim (cleanDomainName ("HTTPS://WWW.EXAMPLE.COM/path".data)) =
      cleanDomainName ("HTTPS://WWW.EXAMPLE.COM/path".data) ∧
    strPre ("www.".data) (cleanDomainName ("HTTPS://WWW.EXAMPLE.COM/path".data)) = false ∧
    normalizeDomain (cleanDomainName ("HTTPS://WWW.EXAMPLE.COM/path".data)) =
      .ok ("example".data, "com".data) :=
  ⟨by decide, by decide, by decide,
    normalizeDomain_idem ("HTTPS://WWW.EXAMPLE.COM/path".data) ("example".data) ("com".data)
      (by decide) (by decide) (by decide)⟩

/-- If no element beats the running maximum, the scan leaves the accumulator
unchanged (this is why `bestChoice` stays `''` when every score is ≤ 0). -/
theorem pickBest_unchanged {P : Type} (rs : List (AnalysisResult P)) (b : Str) (h : ℚ)
    (hall : ∀ r ∈ rs, r.metrics.overallScore ≤ h) :
    rs.foldl pickStep (b, h) = (b, h) := by
  induction rs with
  | nil => rfl
  | cons r rs ih =>
    rw [List.foldl_cons,
      show pickStep (b, h) r = (b, h) from by
        simp [pickStep, not_lt.mpr (hall r (List.mem_cons_self _ _))]]
    exact ih fun x hx => hall x (List.mem_cons_of_mem _ hx)

/-- If some element strictly beats the running maximum, the strict-`>` scan ends
at the FIRST element attaining the maximum score. -/
theorem pickBest_finds_first_max {P : Type} (rs : List (AnalysisResult P)) :
    ∀ (b : Str) (h : ℚ), (∃ r ∈ rs, h < r.metrics.overallScore) →
      ∃ i, ∃ hi : i < rs.length,
        rs.foldl pickStep (b, h) =
          ((rs.get ⟨i, hi⟩).domain, (rs.get ⟨i, hi⟩).metrics.overallScore) ∧
        h < (rs.get ⟨i, hi⟩).metrics.overallScore ∧
        (∀ j (hj : j < rs.length),
          (rs.get ⟨j, hj⟩).metrics.overallScore ≤ (rs.get ⟨i, hi⟩).metrics.overallScore) ∧
        (∀ j (hj : j < rs.length), j < i →
          (rs.get ⟨j, hj⟩).metrics.overallScore < (rs.get ⟨i, hi⟩).metrics.overallScore) := by
  induction rs with
  | nil =>
    rintro b h ⟨r, hr, -⟩
    simp at hr
  | cons r rs ih =>
    intro b h hex
    rw [List.foldl_cons]
    by_cases hr : h < r.metrics.overallScore
    · rw [show pickStep (b, h) r = (r.domain, r.metrics.overallScore) from by
        simp [pickStep, hr]]
      by_cases hrest : ∃ x ∈ rs, r.metrics.overallScore < x.metrics.overallScore
      · obtain ⟨i, hi, heq, hgt, hmax, hfirst⟩ :=
          ih r.domain r.metrics.overallScore hrest
        refine ⟨i + 1, by simpa using Nat.succ_lt_succ hi, heq, lt_trans hr hgt, ?_, ?_⟩
        · intro j hj
          cases j with
          | zero => exact le_of_lt hgt
          | succ j' => exact hmax j' (by simpa using Nat.lt_of_succ_lt_succ hj)
        · intro j hj hlt
          cases j with
          | zero => exact hgt
          | succ j' =>
            exact hfirst j' (by simpa using Nat.lt_of_succ_lt_succ hj)
              (Nat.lt_of_succ_lt_succ hlt)
      · push_neg at hrest
        rw [pickBest_unchanged rs r.domain r.metrics.overallScore hrest]
        refine ⟨0, by simp, rfl, hr, ?_, ?_⟩
        · intro j hj
          cases j with
          | zero => exact le_refl _
          | succ j' =>
            exact hrest (rs.get ⟨j', by simpa using Nat.lt_of_succ_lt_succ hj⟩)
              (rs.get_mem _ _)
        · intro j hj hlt
          exact absurd hlt (Nat.not_lt_zero j)
    · rw [show pickStep (b, h) r = (b, h) from by simp [pickStep, hr]]
      have hex' : ∃ x ∈ rs, h < x.metrics.overallScore := by
        obtain ⟨x, hx, hgt⟩ := hex
        rcases List.mem_cons.mp hx with rfl | hx2
        · exact absurd hgt hr
        · exact ⟨x, hx2, hgt⟩
      obtain ⟨i, hi, heq, hgt, hmax, hfirst⟩ := ih b h hex'
      refine ⟨i + 1, by simpa using Nat.succ_lt_succ hi, heq, hgt, ?_, ?_⟩
      · intro j hj
        cases j with
        | zero => exact le_of_lt (lt_of_le_of_lt (not_lt.mp hr) hgt)
        | succ j' => exact hmax j' (by simpa using Nat.lt_of_succ_lt_succ hj)
      · intro j hj hlt
        cases j with
        | zero => exact lt_of_le_of_lt (not_lt.mp hr) hgt
        | succ j' =>
          exact hfirst j' (by simpa using Nat.lt_of_succ_lt_succ hj)
            (Nat.lt_of_succ_lt_succ hlt)

/-- A successful analysis reports the cleaned (hence non-empty) domain string. -/
theorem analyzeDomain_ok_domain {P : Type} {fp : Str → Except Unit P} {d : Str}
    {r : AnalysisResult P} (h : analyzeDomain P fp d = .ok r) :
    r.domain = cleanDomainName d ∧ cleanDomainName d ≠ [] := by
  by_cases hcd : cleanDomainName d = []
  · simp [analyzeDomain, hcd] at h
  · refine ⟨?_, hcd⟩
    simp only [analyzeDomain, if_neg hcd] at h
    cases hfp : fp (cleanDomainName d) <;> rw [hfp] at h <;>
      (injection h with h2; subst h2; rfl)

/-- Unpacking `Promise.all`: a successful batch analysis is element-wise
successful, in order, with the cleaned non-empty domains. -/
theorem analyzeAll_ok {P : Type} (fp : Str → Except Unit P) :
    ∀ (ds : List Str) (rs : List (AnalysisResult P)), analyzeAll P fp ds = .ok rs →
      rs.length = ds.length ∧
      ∀ i (h1 : i < rs.length) (h2 : i < ds.length),
        (rs.get ⟨i, h1⟩).domain = cleanDomainName (ds.get ⟨i, h2⟩) ∧
        (rs.get ⟨i, h1⟩).domain ≠ [] := by
  intro ds
  induction ds with
  | nil =>
    intro rs h
    unfold analyzeAll at h
    injection h with h2
    subst h2
    exact ⟨rfl, fun i h1 => absurd h1 (by simp)⟩
  | cons d ds ih =>
    intro rs h
    unfold analyzeAll at h
    cases hd : analyzeDomain P fp d <;> rw [hd] at h
    · simp at h
    · cases hrest : analyzeAll P fp ds <;> rw [hrest] at h
      · simp at h
      · injection h with h2
        subst h2
        obtain ⟨hlen, hind⟩ := ih _ hrest
        obtain ⟨hdom, hne⟩ := analyzeDomain_ok_domain hd
        refine ⟨by simpa using congrArg Nat.succ hlen, ?_⟩
        intro i h1 h2
        cases i with
        | zero => exact ⟨hdom, hdom ▸ hne⟩
        | succ i' =>
          exact hind i' (by simpa using Nat.lt_of_succ_lt_succ h1)
            (by simpa using Nat.lt_of_succ_lt_succ h2)

/-- C8: `compareDomains []` returns `{ domains := [], bestChoice := "" }`
without error; and in general `bestChoice` is the empty string exactly when no
analyzed domain has a strictly positive overall score, because the scan starts
from `highestScore = 0`, `bestChoice = ''` and updates only on strict `>`. -/
theorem compareDomains_bestChoice_empty_iff (P : Type) (fp : Str → Except Unit P) :
    compareDomains P fp [] = .ok ⟨[], []⟩ ∧
    ∀ (ds : List Str) (c : DomainComparison P), compareDomains P fp ds = .ok c →
      (c.bestChoice = [] ↔ ∀ r ∈ c.domains, r.metrics.overallScore ≤ 0) := by
  refine ⟨rfl, ?_⟩
  intro ds c hok
  unfold compareDomains at hok
  cases hall : analyzeAll P fp ds <;> rw [hall] at hok
  · simp at hok
  · rename_i rs
    injection hok with h2
    subst h2
    constructor
    · intro hbc r hr
      by_contra hgt
      push_neg at hgt
      obtain ⟨i, hi, heq, -, -, -⟩ := pickBest_finds_first_max rs [] 0 ⟨r, hr, hgt⟩
      have hbc' : (pickBest P rs).1 = (rs.get ⟨i, hi⟩).domain := by
        unfold pickBest
        rw [heq]
      obtain ⟨hlen, hind⟩ := analyzeAll_ok fp ds rs hall
      exact (hind i hi (hlen ▸ hi)).2 (hbc' ▸ hbc)
    · intro hall0
      show (pickBest P rs).1 = []
      unfold pickBest
      rw [pickBest_unchanged rs [] 0 hall0]

/-- C1 amended: when every analysis succeeds AND some analyzed domain has a
strictly positive overall score, `bestChoice` equals the cleaned domain string
of the first input attaining the maximum `overallScore` (strict-`>` scan keeps
the earlier domain on ties).  Without a positive score, `bestChoice` is `""`
(see the counterexample and C8). -/
theorem compareDomains_first_max (P : Type) (fp : Str → Except Unit P) (ds : List Str)
    (c : DomainComparison P) (hok : compareDomains P fp ds = .ok c)
    (hpos : ∃ r ∈ c.domains, 0 < r.metrics.overallScore) :
    c.domains.length = ds.length ∧
    (∀ i (h1 : i < c.domains.length) (h2 : i < ds.length),
      (c.domains.get ⟨i, h1⟩).domain = cleanDomainName (ds.get ⟨i, h2⟩)) ∧
    ∃ i, ∃ hi : i < c.domains.length,
      c.bestChoice = (c.domains.get ⟨i, hi⟩).domain ∧
      (∀ j (hj : j < c.domains.length),
        (c.domains.get ⟨j, hj⟩).metrics.overallScore ≤
          (c.domains.get ⟨i, hi⟩).metrics.overallScore) ∧
      (∀ j (hj : j < c.domains.length), j < i →
        (c.domains.get ⟨j, hj⟩).metrics.overallScore <
          (c.domains.get ⟨i, hi⟩).metrics.overallScore) := by
  unfold compareDomains at hok
  cases hall : analyzeAll P fp ds <;> rw [hall] at hok
  · simp at hok
  · rename_i rs
    injection hok with h2
    subst h2
    obtain ⟨hlen, hind⟩ := analyzeAll_ok fp ds rs hall
    refine ⟨hlen, fun i h1 h2 => (hind i h1 h2).1, ?_⟩
    obtain ⟨i, hi, heq, -, hmax, hfirst⟩ := pickBest_finds_first_max rs [] 0 hpos
    refine ⟨i, hi, ?_, hmax, hfirst⟩
    show (pickBest P rs).1 = _
    unfold pickBest
    rw [heq]

/-- C1 counterexample: `lowScoreDomain` is a valid, already-clean domain whose
unique (hence maximal) analysis result has overall score −1; `compareDomains`
on the singleton list succeeds but returns `bestChoice = ""`, which is not the
cleaned domain string of that maximal element. -/
theorem bestChoice_not_max_counterexample :
    (compareDomains Unit samplePricingFail [lowScoreDomain]).map (fun c => c.bestChoice) =
      .ok [] ∧
    (compareDomains Unit samplePricingFail [lowScoreDomain]).map
      (fun c => c.domains.map (fun r => r.domain)) = .ok [lowScoreDomain] ∧
    (compareDomains Unit samplePricingFail [lowScoreDomain]).map
      (fun c => c.domains.map (fun r => r.metrics.overallScore)) = .ok [-1] ∧
    lowScoreDomain ≠ [] := by
  refine ⟨by decide, by decide, by decide, by decide⟩

/-- Witness for C8 on the singleton list `["example.com"]`. -/
theorem compareDomains_bestChoice_empty_iff_witness :
    compareDomains Unit samplePricingFail ["example.com".data] = .ok sampleCmp ∧
    (sampleCmp.bestChoice = [] ↔ ∀ r ∈ sampleCmp.domains, r.metrics.overallScore ≤ 0) :=
  ⟨rfl, (compareDomains_bestChoice_empty_iff Unit samplePricingFail).2
    ["example.com".data] sampleCmp rfl⟩

/-- Witness for the amended C1 on the singleton list `["example.com"]`
(overall score 8 > 0). -/
theorem compareDomains_first_max_witness :
    (∃ r ∈ sampleCmp.domains, 0 < r.metrics.overallScore) ∧
    (sampleCmp.domains.length = (["example.com".data] : List Str).length ∧
      (∀ i (h1 : i < sampleCmp.domains.length)
        (h2 : i < (["example.com".data] : List Str).length),
        (sampleCmp.domains.get ⟨i, h1⟩).domain =
          cleanDomainName ((["example.com".data] : List Str).get ⟨i, h2⟩)) ∧
      ∃ i, ∃ hi : i < sampleCmp.domains.length,
        sampleCmp.bestChoice = (sampleCmp.domains.get ⟨i, hi⟩).domain ∧
        (∀ j (hj : j < sampleCmp.domains.length),
          (sampleCmp.domains.get ⟨j, hj⟩).metrics.overallScore ≤
            (sampleCmp.domains.get ⟨i, hi⟩).metrics.overallScore) ∧
        (∀ j (hj : j < sampleCmp.domains.length), j < i →
          (sampleCmp.domains.get ⟨j, hj⟩).metrics.overallScore <
            (sampleCmp.domains.get ⟨i, hi⟩).metrics.overallScore)) :=
  ⟨by decide, compareDomains_first_max Unit samplePricingFail ["example.com".data]
    sampleCmp rfl (by decide)⟩
